import Mathlib

/-
Shallow embedding of the cf_ai_chat worker (src/cf-ai-chat/src/index.ts).

The session store is a Durable Object backed by a SQLite table
(auto-increment id, role, content); rows are always read ordered by id
ascending, so a session state is embedded as a Lean list of messages in
insertion order.  The inference call (env.AI.run) is embedded as an oracle
function that either throws (Except.error) or returns a result that is a
plain string or a structured object with an optional response field.  The
HTTP router (the default fetch handler) is embedded as a pure function on
the method, the path, the query session id, the parsed body and the map
from session ids to session states.
-/

namespace CfAiChat

/-- Message roles, from the ChatMessage interface in index.ts. -/
inductive Role
  | user
  | assistant
  | system
  deriving DecidableEq, Repr

/-- A conversation message: role and content, as stored in the messages
table and returned by getHistory. -/
structure ChatMessage where
  role : Role
  content : String
  deriving DecidableEq, Repr

/-- A session state: the rows of the per-session messages table, in
ascending id order (insertion order). -/
abbrev SessionState := List ChatMessage

/-- getHistory: SELECT role, content FROM messages ORDER BY id ASC, i.e.
the full log in insertion order. -/
def getHistory (s : SessionState) : List ChatMessage := s

/-- addMessage: INSERT INTO messages (role, content) VALUES (?, ?);
the auto-increment id places the new row after all existing rows. -/
def addMessage (s : SessionState) (role : Role) (content : String) : SessionState :=
  s ++ [⟨role, content⟩]

/-- clearHistory: DELETE FROM messages. -/
def clearHistory (_s : SessionState) : SessionState := []

/-- The result value of env.AI.run when it does not throw: either a plain
string, or a structured object whose response field may be absent. -/
inductive AIRunResult
  | plain (s : String)
  | obj (response : Option String)
  deriving DecidableEq, Repr

/-- The fixed placeholder completion used when the structured response
field is missing (or falsy). -/
def placeholderResponse : String :=
  "I apologize, but I couldn\x27t generate a response."

/-- The fixed system preamble prepended to the history in chat. -/
def systemPrompt : String :=
  "You are a helpful, friendly AI assistant. Keep your responses concise but informative."

/-- Extraction of the completion text from the inference result, embedding
the expression
  typeof response === "string" ? response
    : (response as ...).response || placeholder.
JS || takes the right operand exactly when the left is falsy; a string-or-
undefined field is falsy when it is undefined or the empty string. -/
def extractCompletion : AIRunResult → String
  | .plain s => s
  | .obj response =>
      match response with
      | some s => if s = "" then placeholderResponse else s
      | none => placeholderResponse

/-- The inference oracle: the behaviour of env.AI.run on a message list.
Except.error models a thrown error. -/
abbrev InferOracle := List ChatMessage → Except Unit AIRunResult

/-- The message list chat builds and passes to env.AI.run: the system
preamble followed by the history read after appending the user message. -/
def chatModelInput (s : SessionState) (userMessage : String) : List ChatMessage :=
  ⟨Role.system, systemPrompt⟩ :: getHistory (addMessage s Role.user userMessage)

/-- chat: append the user message, read the history, call the model on
the system preamble plus history, extract the completion, append it as an
assistant message and return it.  If the model call throws, the error
propagates and the state keeps only the user append. -/
def chat (infer : InferOracle) (s : SessionState) (userMessage : String) :
    Except Unit String × SessionState :=
  let s1 := addMessage s Role.user userMessage
  match infer (chatModelInput s userMessage) with
  | .error e => (.error e, s1)
  | .ok r =>
      let assistantMessage := extractCompletion r
      (.ok assistantMessage, addMessage s1 Role.assistant assistantMessage)

/-- HTTP methods distinguished by the router. -/
inductive Method
  | GET
  | POST
  | DELETE
  | OPTIONS
  | other
  deriving DecidableEq, Repr

/-- The message field of a parsed JSON chat request body: absent,
a string value, or a non-string JSON value (truthy records its JS
truthiness). -/
inductive JsonField
  | absent
  | strVal (s : String)
  | nonString (truthy : Bool)
  deriving DecidableEq, Repr

/-- A parsed POST /api/chat body (the ChatRequest interface): a message
field and an optional sessionId string. -/
structure ChatRequest where
  message : JsonField
  sessionId : Option String
  deriving DecidableEq, Repr

/-- Response bodies produced by the router, one constructor per JSON or
text shape it can build. -/
inductive RespBody
  | empty
  | errorBody (msg : String)
  | chatBody (response sessionId : String)
  | historyBody (history : List ChatMessage) (sessionId : String)
  | clearBody (sessionId : String)
  | healthBody
  | textBody (s : String)
  deriving DecidableEq, Repr

/-- An HTTP response: status code and body. -/
structure HttpResponse where
  status : Nat
  body : RespBody
  deriving DecidableEq, Repr

/-- The map from session ids to session states: getByName resolves each
id to its own Durable Object instance. -/
abbrev Sessions := String → SessionState

/-- Replace the state of one session id, leaving every other id alone. -/
def updateSession (m : Sessions) (id : String) (s : SessionState) : Sessions :=
  fun k => if k = id then s else m k

/-- Resolution of the sessionId query parameter:
url.searchParams.get("sessionId") || "default" defaults on a missing
parameter and, by JS falsiness, also on the empty string. -/
def resolveQuerySessionId : Option String → String
  | none => "default"
  | some s => if s = "" then "default" else s

/-- The router (the default fetch handler), embedding its checks in
source order: OPTIONS preflight, POST /api/chat (JSON parse failure or a
chat error is caught as a 500; a missing, empty or non-string message is
a 400), GET /api/history, DELETE /api/clear, the /api/health check
(matched on path alone, with no method test), and the 404 fallback. -/
def handleRequest (infer : InferOracle) (sessions : Sessions)
    (method : Method) (path : String) (querySessionId : Option String)
    (body : Except Unit ChatRequest) : HttpResponse × Sessions :=
  if method = Method.OPTIONS then
    (⟨200, .empty⟩, sessions)
  else if path = "/api/chat" ∧ method = Method.POST then
    match body with
    | .error _ => (⟨500, .errorBody "Failed to process chat request"⟩, sessions)
    | .ok b =>
        let sessionId := b.sessionId.getD "default"
        match b.message with
        | .strVal m =>
            if m = "" then
              (⟨400, .errorBody "Message is required"⟩, sessions)
            else
              match chat infer (sessions sessionId) m with
              | (.error _, s1) =>
                  (⟨500, .errorBody "Failed to process chat request"⟩,
                   updateSession sessions sessionId s1)
              | (.ok resp, s2) =>
                  (⟨200, .chatBody resp sessionId⟩,
                   updateSession sessions sessionId s2)
        | _ => (⟨400, .errorBody "Message is required"⟩, sessions)
  else if path = "/api/history" ∧ method = Method.GET then
    let sessionId := resolveQuerySessionId querySessionId
    (⟨200, .historyBody (getHistory (sessions sessionId)) sessionId⟩, sessions)
  else if path = "/api/clear" ∧ method = Method.DELETE then
    let sessionId := resolveQuerySessionId querySessionId
    (⟨200, .clearBody sessionId⟩,
     updateSession sessions sessionId (clearHistory (sessions sessionId)))
  else if path = "/api/health" then
    (⟨200, .healthBody⟩, sessions)
  else
    (⟨404, .textBody "Not Found"⟩, sessions)

/-- A finite sequence of addMessage calls applied in order. -/
def applyAppends (s : SessionState) : List (Role × String) → SessionState
  | [] => s
  | (r, c) :: rest => applyAppends (addMessage s r c) rest

/-! Theorems settling the claims. -/

/-- Helper: getHistory after a sequence of appends is the old history
followed by the appended messages in order. -/
theorem getHistory_applyAppends (ops : List (Role × String)) (s : SessionState) :
    getHistory (applyAppends s ops) =
      getHistory s ++ ops.map (fun p => ChatMessage.mk p.1 p.2) := by
  induction ops generalizing s with
  | nil => simp [applyAppends]
  | cons p rest ih =>
      rcases p with ⟨r, c⟩
      rw [applyAppends, ih]
      simp [addMessage, getHistory]

/-- C2: for every finite sequence of addMessage calls on a fresh session,
getHistory returns exactly the appended messages, in append order, with
role and content preserved verbatim. -/
theorem append_order_preserved (ops : List (Role × String)) :
    getHistory (applyAppends ([] : SessionState) ops) =
      ops.map (fun p => ChatMessage.mk p.1 p.2) := by
  simpa [getHistory] using getHistory_applyAppends ops []

/-- C1: chat on an empty session passes exactly the system preamble
followed by the user message to the inference call, and when the call
succeeds the history afterwards is exactly the user message followed by
the assistant completion, which chat also returns. -/
theorem chat_empty_session_two_messages (infer : InferOracle) (m : String)
    (r : AIRunResult) (h : infer (chatModelInput [] m) = .ok r) :
    chatModelInput [] m = [⟨Role.system, systemPrompt⟩, ⟨Role.user, m⟩] ∧
    (chat infer [] m).1 = .ok (extractCompletion r) ∧
    getHistory (chat infer [] m).2 =
      [⟨Role.user, m⟩, ⟨Role.assistant, extractCompletion r⟩] := by
  refine ⟨rfl, ?_, ?_⟩ <;> simp [chat, h, addMessage, getHistory]

/-- Witness for C1 at a concrete oracle and message. -/
theorem chat_empty_session_two_messages_witness :
    chatModelInput [] "hello" = [⟨Role.system, systemPrompt⟩, ⟨Role.user, "hello"⟩] ∧
    (chat (fun _ => .ok (.plain "hi")) [] "hello").1 = .ok "hi" ∧
    getHistory (chat (fun _ => .ok (.plain "hi")) [] "hello").2 =
      [⟨Role.user, "hello"⟩, ⟨Role.assistant, "hi"⟩] := by
  have h := chat_empty_session_two_messages (fun _ => .ok (.plain "hi"))
    "hello" (.plain "hi") rfl
  simpa [extractCompletion] using h

/-- C3: if the inference call inside chat throws, chat propagates the
error, the session keeps the user message with no assistant message
appended, and POST /api/chat responds 500 with the failure body while the
sessions map keeps that partial progress. -/
theorem inference_failure_partial_progress (infer : InferOracle)
    (sessions : Sessions) (sid m : String) (hm : m ≠ "")
    (h : infer (chatModelInput (sessions sid) m) = .error ()) :
    (chat infer (sessions sid) m).1 = .error () ∧
    (chat infer (sessions sid) m).2 = addMessage (sessions sid) Role.user m ∧
    handleRequest infer sessions Method.POST "/api/chat" none
        (.ok ⟨.strVal m, some sid⟩) =
      (⟨500, .errorBody "Failed to process chat request"⟩,
       updateSession sessions sid (addMessage (sessions sid) Role.user m)) := by
  have hc : chat infer (sessions sid) m =
      (.error (), addMessage (sessions sid) Role.user m) := by
    simp [chat, h]
  refine ⟨by simp [hc], by simp [hc], ?_⟩
  simp [handleRequest, hm, hc]

/-- Witness for C3 at a concrete always-failing oracle. -/
theorem inference_failure_partial_progress_witness :
    (chat (fun _ => .error ()) ((fun _ => ([] : SessionState)) "s") "hello").1 = .error () ∧
    (chat (fun _ => .error ()) ((fun _ => ([] : SessionState)) "s") "hello").2 =
      addMessage ((fun _ => ([] : SessionState)) "s") Role.user "hello" ∧
    handleRequest (fun _ => .error ()) (fun _ => ([] : SessionState)) Method.POST
        "/api/chat" none (.ok ⟨.strVal "hello", some "s"⟩) =
      (⟨500, .errorBody "Failed to process chat request"⟩,
       updateSession (fun _ => ([] : SessionState)) "s"
         (addMessage ((fun _ => ([] : SessionState)) "s") Role.user "hello")) :=
  inference_failure_partial_progress (fun _ => .error ())
    (fun _ => ([] : SessionState)) "s" "hello" (by decide) rfl

/-- C4: appending to session a, directly or through a POST /api/chat
handled for session a, never changes the history of a different session
b: each session id resolves to its own store. -/
theorem session_isolation (sessions : Sessions) (a b : String) (r : Role)
    (c : String) (infer : InferOracle) (m : String) (hab : a ≠ b) :
    getHistory (updateSession sessions a (addMessage (sessions a) r c) b) =
      getHistory (sessions b) ∧
    getHistory ((handleRequest infer sessions Method.POST "/api/chat" none
        (.ok ⟨.strVal m, some a⟩)).2 b) = getHistory (sessions b) := by
  have hba : ¬ b = a := fun hcontra => hab hcontra.symm
  constructor
  · simp [updateSession, getHistory, hba]
  · by_cases hm : m = ""
    · simp [handleRequest, hm]
    · rcases hc : chat infer (sessions a) m with ⟨res, s2⟩
      cases res with
      | error e => simp [handleRequest, hm, hc, updateSession, getHistory, hba]
      | ok v => simp [handleRequest, hm, hc, updateSession, getHistory, hba]

/-- Witness for C4 at two concrete distinct session ids. -/
theorem session_isolation_witness :
    getHistory (updateSession (fun _ => ([] : SessionState)) "a"
        (addMessage ((fun _ => ([] : SessionState)) "a") Role.user "x") "b") =
      getHistory ((fun _ => ([] : SessionState)) "b") ∧
    getHistory ((handleRequest (fun _ => .ok (.plain "hi"))
        (fun _ => ([] : SessionState)) Method.POST "/api/chat" none
        (.ok ⟨.strVal "Hi", some "a"⟩)).2 "b") =
      getHistory ((fun _ => ([] : SessionState)) "b") :=
  session_isolation (fun _ => ([] : SessionState)) "a" "b" Role.user "x"
    (fun _ => .ok (.plain "hi")) "Hi" (by decide)

/-- C5 counterexample: a structured result whose response field is
present but equal to the empty string yields the placeholder, not the
field value, so the placeholder is not used exactly when the field is
absent. -/
theorem extract_present_empty_field_cex :
    extractCompletion (AIRunResult.obj (some "")) = placeholderResponse ∧
    extractCompletion (AIRunResult.obj (some "")) ≠ "" := by
  refine ⟨rfl, ?_⟩
  decide

/-- C5 amended: a plain string result is the completion verbatim; a
structured result yields its response field when that field is present
and non-empty, and the fixed placeholder when the field is absent or is
the empty string. -/
theorem extractCompletion_amended (s r : String) (hr : r ≠ "") :
    extractCompletion (.plain s) = s ∧
    extractCompletion (.obj (some r)) = r ∧
    extractCompletion (.obj none) = placeholderResponse ∧
    extractCompletion (.obj (some "")) = placeholderResponse := by
  refine ⟨rfl, ?_, rfl, rfl⟩
  simp [extractCompletion, hr]

/-- Witness for the amended C5 at concrete strings. -/
theorem extractCompletion_amended_witness :
    extractCompletion (.plain "x") = "x" ∧
    extractCompletion (.obj (some "ok")) = "ok" ∧
    extractCompletion (.obj none) = placeholderResponse ∧
    extractCompletion (.obj (some "")) = placeholderResponse :=
  extractCompletion_amended "x" "ok" (by decide)

/-- C6: a POST /api/chat body whose message field is absent, the empty
string, or not a string gets a 400 with the required-message error body,
and the sessions map is returned unchanged. -/
theorem invalid_message_400 (infer : InferOracle) (sessions : Sessions)
    (q : Option String) (f : JsonField) (sid : Option String)
    (h : f = .absent ∨ f = .strVal "" ∨ ∃ t, f = .nonString t) :
    handleRequest infer sessions Method.POST "/api/chat" q (.ok ⟨f, sid⟩) =
      (⟨400, .errorBody "Message is required"⟩, sessions) := by
  rcases h with h | h | ⟨t, h⟩ <;> subst h <;> simp [handleRequest]

/-- Witness for C6 at the empty-string message. -/
theorem invalid_message_400_witness :
    handleRequest (fun _ => .error ()) (fun _ => ([] : SessionState))
        Method.POST "/api/chat" none (.ok ⟨.strVal "", none⟩) =
      (⟨400, .errorBody "Message is required"⟩, fun _ => ([] : SessionState)) :=
  invalid_message_400 (fun _ => .error ()) (fun _ => ([] : SessionState))
    none (.strVal "") none (Or.inr (Or.inl rfl))

/-- C7: after clearHistory, getHistory returns the empty sequence, and a
subsequent addMessage yields a fresh log holding only the new message. -/
theorem clear_then_fresh (s : SessionState) (r : Role) (c : String) :
    getHistory (clearHistory s) = [] ∧
    getHistory (addMessage (clearHistory s) r c) = [⟨r, c⟩] :=
  ⟨rfl, rfl⟩

/-- C8 counterexample: POST to /api/health is not one of the five routes
the claim lists, yet the router answers it with the 200 health body, not
404, because the health branch tests only the path. -/
theorem health_post_not_404_cex :
    (handleRequest (fun _ => .error ()) (fun _ => ([] : SessionState))
        Method.POST "/api/health" none (.error ())).1 = ⟨200, .healthBody⟩ ∧
    (handleRequest (fun _ => .error ()) (fun _ => ([] : SessionState))
        Method.POST "/api/health" none (.error ())).1.status ≠ 404 := by
  constructor
  · simp [handleRequest]
  · simp [handleRequest]

/-- C8 amended: the router answers 404 Not Found exactly when the
request matches none of: OPTIONS with any path, POST /api/chat, GET
/api/history, DELETE /api/clear, or any method with path /api/health. -/
theorem notFound_iff_unmatched (infer : InferOracle) (sessions : Sessions)
    (method : Method) (path : String) (q : Option String)
    (body : Except Unit ChatRequest) :
    (handleRequest infer sessions method path q body).1 =
        ⟨404, .textBody "Not Found"⟩ ↔
      (method ≠ Method.OPTIONS ∧
       ¬(path = "/api/chat" ∧ method = Method.POST) ∧
       ¬(path = "/api/history" ∧ method = Method.GET) ∧
       ¬(path = "/api/clear" ∧ method = Method.DELETE) ∧
       path ≠ "/api/health") := by
  by_cases h1 : method = Method.OPTIONS
  · simp [handleRequest, h1]
  by_cases h2 : path = "/api/chat" ∧ method = Method.POST
  · simp only [handleRequest, if_neg h1, if_pos h2]
    constructor
    · intro hstat
      exfalso
      rcases body with e | b
      · simp at hstat
      · rcases b with ⟨f, sid⟩
        rcases f with _ | m | t
        · simp at hstat
        · by_cases hm : m = ""
          · simp [hm] at hstat
          · rcases hc : chat infer (sessions (sid.getD "default")) m with ⟨res, s2⟩
            rcases res with e | v <;> simp [hm, hc] at hstat
        · simp at hstat
    · intro hr
      exact absurd h2 hr.2.1
  by_cases h3 : path = "/api/history" ∧ method = Method.GET
  · simp [handleRequest, h1, h2, h3]
  by_cases h4 : path = "/api/clear" ∧ method = Method.DELETE
  · simp [handleRequest, h1, h2, h3, h4]
  by_cases h5 : path = "/api/health"
  · simp [handleRequest, h1, h2, h3, h4, h5]
  · simp [handleRequest, h1, h2, h3, h4, h5]

/-- C10: a POST /api/chat whose body fails to parse as JSON is answered
500 with the generic failure body, and no session state changes. -/
theorem unparseable_body_500 (infer : InferOracle) (sessions : Sessions)
    (q : Option String) :
    handleRequest infer sessions Method.POST "/api/chat" q (.error ()) =
      (⟨500, .errorBody "Failed to process chat request"⟩, sessions) := by
  simp [handleRequest]

end CfAiChat
